import Mathlib

/-!
Verification of the watchlist store and quote fetcher of `manitracker.py`
(an Indian-stock watchlist dashboard).

The program keeps an ordered collection of watch items
`{"symbol": str, "target_price": float, "remarks": str}` persisted as a JSON
array in a flat file, and fetches per-symbol market data through a memoized
wrapper around an external provider.

Shallow embedding conventions:
* Python floats carried by the program (target prices, quote fields) are
  modelled as rationals `ℚ`; the program performs no arithmetic on them,
  it only stores, compares and displays them.
* JSON values are modelled by the inductive `Json`; the Python `json`
  text codec (`json.dump` / `json.load`) is treated as a value-level store:
  the persisted file holds the JSON value that was written, `json.load`
  returns it, and a file whose text is not well-formed JSON (e.g. a write
  that was cut short after the file had been truncated) is the state
  `FileState.truncated`, on which `json.load` raises (modelled as `none`).
* Fallible operations return `Option`.
-/

namespace ManiTracker

/-- Model of Python `str.upper()` as used on ticker symbols: per-character
uppercasing (the tickers involved are ASCII, where `Char.toUpper` agrees
with Python's mapping). -/
def upper (s : String) : String :=
  ⟨s.data.map Char.toUpper⟩

/-- One watch item, the record `{"symbol": ..., "target_price": ..., "remarks": ...}`
appended by the add handler (manitracker.py lines 62-66). -/
structure WatchItem where
  symbol : String
  target_price : ℚ
  remarks : String
deriving DecidableEq, Repr

/-- JSON values, the shape of what `json.dump` writes and `json.load` returns. -/
inductive Json where
  | null
  | bool (b : Bool)
  | num (q : ℚ)
  | str (s : String)
  | arr (elems : List Json)
  | obj (fields : List (String × Json))
deriving Repr

/-- State of the persisted file `stock_wishlist.json`.
`absent`: the file does not exist (`os.path.exists` is false).
`truncated`: the file exists but holds text that is not the complete
serialization of any JSON value — the state left behind when
`open(WISHLIST_FILE, "w")` has truncated the file and `json.dump` then
failed before completing the write.
`holds j`: the file holds exactly the serialization of the JSON value `j`. -/
inductive FileState where
  | absent
  | truncated
  | holds (j : Json)
deriving Repr

/-- Serialization of one watch item: the Python dict passed to `json.dump`,
with its three fields. -/
def encodeItem (it : WatchItem) : Json :=
  .obj [("symbol", .str it.symbol), ("target_price", .num it.target_price),
        ("remarks", .str it.remarks)]

/-- Serialization of the whole wishlist: a JSON array of item objects. -/
def encodeWishlist (wishlist : List WatchItem) : Json :=
  .arr (wishlist.map encodeItem)

/-- Typed reading of one persisted item: the loaded dict must carry a string
`symbol`, numeric `target_price` and string `remarks` (the shape every piece
of the program relies on when it indexes `item['symbol']` etc.). -/
def decodeItem : Json → Option WatchItem
  | .obj fields =>
    match fields.lookup "symbol", fields.lookup "target_price",
          fields.lookup "remarks" with
    | some (.str s), some (.num p), some (.str r) =>
      some { symbol := s, target_price := p, remarks := r }
    | _, _, _ => none
  | _ => none

/-- Typed reading of a list of persisted items. -/
def decodeItems : List Json → Option (List WatchItem)
  | [] => some []
  | x :: xs =>
    match decodeItem x, decodeItems xs with
    | some it, some its => some (it :: its)
    | _, _ => none

/-- Typed reading of the full persisted collection: a JSON array of items. -/
def decodeWishlist : Json → Option (List WatchItem)
  | .arr xs => decodeItems xs
  | _ => none

/-- `load_wishlist` (manitracker.py lines 18-22): if the file does not exist,
return `[]`; otherwise `json.load` the contents.  A `truncated` file makes
`json.load` raise (the spec's unhandled fatal condition), and contents that
are not a list of watch-item records would make the callers crash on field
access; both failure modes are `none`. -/
def load_wishlist : FileState → Option (List WatchItem)
  | .absent => some []
  | .truncated => none
  | .holds j => decodeWishlist j

/-- `save_wishlist` (manitracker.py lines 24-26), successful run:
`open(WISHLIST_FILE, "w")` truncates whatever was there and `json.dump`
writes the full serialization of `wishlist`.  The result does not depend on
the previous file state: full replace, no merge. -/
def save_wishlist (wishlist : List WatchItem) (_fs : FileState) : FileState :=
  .holds (encodeWishlist wishlist)

/-- `save_wishlist` (manitracker.py lines 24-26), failing run:
`open(WISHLIST_FILE, "w")` truncates the file at once, and `json.dump`
then raises (or the process dies) before the serialization is completely
written.  The previous contents are already gone; the file is left in the
`truncated` state.  There is no write-to-temp-and-rename step in the code
that would shield the previous contents. -/
def save_wishlist_failed (_wishlist : List WatchItem) (_fs : FileState) : FileState :=
  .truncated

/-- The pure collection update of the add handler (manitracker.py lines
59-66): if some item already carries the uppercased symbol, the wishlist is
unchanged and the add is reported rejected (`st.warning`); otherwise the new
item `{symbol: symbol.upper(), target_price, remarks: ""}` is appended and
the add is reported accepted. -/
def add (wishlist : List WatchItem) (new_symbol : String) (new_target_price : ℚ) :
    List WatchItem × Bool :=
  if wishlist.any (fun item => item.symbol == upper new_symbol) then
    (wishlist, false)
  else
    (wishlist ++ [{ symbol := upper new_symbol, target_price := new_target_price,
                    remarks := "" }], true)

/-- The full add handler (manitracker.py lines 57-68), including its effect
on the persisted file: on a successful add it calls `save_wishlist` with the
updated collection (line 67); on a rejected duplicate it does not touch the
file.  Returns (collection, added, file state). -/
def add_handler (wishlist : List WatchItem) (new_symbol : String)
    (new_target_price : ℚ) (fs : FileState) : List WatchItem × Bool × FileState :=
  if wishlist.any (fun item => item.symbol == upper new_symbol) then
    (wishlist, false, fs)
  else
    let wishlist2 := wishlist ++ [{ symbol := upper new_symbol,
                                    target_price := new_target_price, remarks := "" }]
    (wishlist2, true, save_wishlist wishlist2 fs)

/-- A sequence of add operations (symbol, target price), applied in order. -/
def addSeq (ops : List (String × ℚ)) (wishlist : List WatchItem) : List WatchItem :=
  ops.foldl (fun w op => (add w op.1 op.2).1) wishlist

/-- The remarks update loop (manitracker.py lines 122-124): every item whose
symbol matches gets its remarks replaced; every other item is untouched. -/
def update_remarks (wishlist : List WatchItem) (selected_symbol : String)
    (new_remarks : String) : List WatchItem :=
  wishlist.map (fun item =>
    if item.symbol == selected_symbol then { item with remarks := new_remarks }
    else item)

/-- The target-price update loop (manitracker.py lines 139-141): every item
whose symbol matches gets its target price replaced; every other item is
untouched. -/
def update_target (wishlist : List WatchItem) (selected_symbol : String)
    (new_target : ℚ) : List WatchItem :=
  wishlist.map (fun item =>
    if item.symbol == selected_symbol then { item with target_price := new_target }
    else item)

/-- One daily OHLC bar of `stock.history(period="1y")` (the columns the chart
reads: `Open`, `High`, `Low`, `Close`, indexed by date). -/
structure PriceBar where
  Date : String
  Open : ℚ
  High : ℚ
  Low : ℚ
  Close : ℚ
deriving DecidableEq, Repr

/-- The current-quote info blob `stock.info`: a Python dict from field names
to JSON-like values. -/
abbrev Info := List (String × Json)

/-- What `get_stock_info` returns: the pair `(data, info)`, each component
`none` exactly when the except branch produced `(None, None)`. -/
abbrev StockResult := Option (List PriceBar) × Option Info

/-- The external provider: one synchronous call per symbol, yielding the
history bars and the info blob, or raising (`none`) on any failure.  This
stands for the `yf.Ticker(symbol)` / `stock.history` / `stock.info` calls. -/
abbrev Provider := String → Option (List PriceBar × Info)

/-- The state `@st.cache_data` maintains for `get_stock_info` across one
process session: the memo table keyed by the `symbol` argument, plus the
trace of provider invocations actually performed (used to count calls). -/
structure CacheState where
  cache : List (String × StockResult)
  calls : List String

/-- `get_stock_info` (manitracker.py lines 29-38) under `@st.cache_data`:
on a cache hit for `symbol` the memoized result is returned and the provider
is not consulted; on a miss the provider is invoked once — a successful call
yields `(data, info)`, an exception is caught and yields `(None, None)` —
and the returned value, failure included, is stored in the cache. -/
def get_stock_info (provider : Provider) (symbol : String) (st : CacheState) :
    StockResult × CacheState :=
  match st.cache.lookup symbol with
  | some r => (r, st)
  | none =>
    let r : StockResult :=
      match provider symbol with
      | some (data, info) => (some data, some info)
      | none => (none, none)
    (r, { cache := st.cache ++ [(symbol, r)], calls := st.calls ++ [symbol] })

/-- A sequence of fetches within one process session (later render cycles
re-invoking `get_stock_info` on various symbols), threading the cache. -/
def runFetches (provider : Provider) (symbols : List String) (st : CacheState) :
    CacheState :=
  symbols.foldl (fun s sym => (get_stock_info provider sym s).2) st

/-- Line 77 of manitracker.py: `current_price = info.get('currentPrice', 'N/A')`. -/
def current_price_of (info : Info) : Json :=
  (List.lookup "currentPrice" info).getD (.str "N/A")

/-- Line 78 of manitracker.py: `day_change = info.get('regularMarketChangePercent', 'N/A')`. -/
def day_change_of (info : Info) : Json :=
  (List.lookup "regularMarketChangePercent" info).getD (.str "N/A")

/-! ### Helper lemmas -/

theorem toNat_ofNat_of_valid {n : Nat} (h : n.isValidChar) : (Char.ofNat n).toNat = n := by
  rw [Char.ofNat, dif_pos h]
  rfl

theorem toUpper_toUpper (c : Char) : c.toUpper.toUpper = c.toUpper := by
  unfold Char.toUpper
  by_cases h : 97 ≤ c.toNat ∧ c.toNat ≤ 122
  · rw [if_pos h]
    have ht : (Char.ofNat (c.toNat - 32)).toNat = c.toNat - 32 :=
      toNat_ofNat_of_valid (Or.inl (by omega))
    rw [if_neg]
    rw [ht]
    omega
  · rw [if_neg h, if_neg h]

theorem upper_upper (s : String) : upper (upper s) = upper s := by
  unfold upper
  rw [List.map_map]
  exact congrArg String.mk (List.map_congr_left fun c _ => toUpper_toUpper c)

theorem not_mem_of_any_eq_false {w : List WatchItem} {s : String}
    (hg : (w.any fun item => item.symbol == upper s) = false) :
    ∀ it ∈ w, it.symbol ≠ upper s := by
  intro it hit
  have := List.any_eq_false.mp hg it hit
  simpa using this

theorem add_invariant (w : List WatchItem) (s : String) (p : ℚ)
    (hup : ∀ it ∈ w, upper it.symbol = it.symbol)
    (hdist : w.Pairwise (fun a b => a.symbol ≠ b.symbol)) :
    (∀ it ∈ (add w s p).1, upper it.symbol = it.symbol) ∧
      (add w s p).1.Pairwise (fun a b => a.symbol ≠ b.symbol) := by
  cases hg : w.any (fun item => item.symbol == upper s) with
  | true => simp only [add, hg, if_true]; exact ⟨hup, hdist⟩
  | false =>
    simp only [add, hg, Bool.false_eq_true, if_false]
    constructor
    · intro it hit
      rcases List.mem_append.mp hit with h | h
      · exact hup it h
      · simp only [List.mem_singleton] at h
        subst h
        exact upper_upper s
    · rw [List.pairwise_append]
      refine ⟨hdist, List.pairwise_singleton _ _, ?_⟩
      intro a ha b hb
      simp only [List.mem_singleton] at hb
      subst hb
      exact not_mem_of_any_eq_false hg a ha

/-! ### Claims -/

/-- C1: starting from any collection whose symbols are already uppercase and
pairwise distinct, any sequence of add operations leaves the collection with
no two items whose symbols agree case-insensitively (each added symbol is
uppercased, and an add whose uppercased symbol already occurs is a no-op). -/
theorem add_seq_no_case_insensitive_duplicates
    (ops : List (String × ℚ)) (w : List WatchItem)
    (hup : ∀ it ∈ w, upper it.symbol = it.symbol)
    (hdist : w.Pairwise (fun a b => a.symbol ≠ b.symbol)) :
    (addSeq ops w).Pairwise (fun a b => upper a.symbol ≠ upper b.symbol) := by
  induction ops generalizing w with
  | nil =>
    simp only [addSeq, List.foldl_nil]
    refine hdist.imp_of_mem ?_
    intro a b ha hb hne
    rw [hup a ha, hup b hb]
    exact hne
  | cons op ops ih =>
    simp only [addSeq, List.foldl_cons] at *
    exact ih _ (add_invariant w op.1 op.2 hup hdist).1 (add_invariant w op.1 op.2 hup hdist).2

/-- Witness for C1 at a concrete input: two adds of the same symbol in
different casing, starting from the empty collection. -/
theorem add_seq_no_case_insensitive_duplicates_witness :
    (∀ it ∈ ([] : List WatchItem), upper it.symbol = it.symbol) ∧
    ([] : List WatchItem).Pairwise (fun a b => a.symbol ≠ b.symbol) ∧
    (addSeq [("INFY", 10), ("infy", 20)] []).Pairwise
      (fun a b => upper a.symbol ≠ upper b.symbol) :=
  ⟨by simp, by simp,
    add_seq_no_case_insensitive_duplicates [("INFY", 10), ("infy", 20)] []
      (by simp) (by simp)⟩

/-- C4: add uppercases the symbol; a duplicate (after uppercasing) leaves the
collection unchanged with added=false; otherwise the item
{symbol: uppercased, target_price, remarks: ""} is appended at the end with
added=true.  Moreover load with no persisted file yields the empty
collection, and add([], "reliance.ns", 2500.0) yields exactly
[{symbol:"RELIANCE.NS", target_price:2500.0, remarks:""}]. -/
theorem add_normalizes_and_appends :
    (∀ (w : List WatchItem) (s : String) (p : ℚ),
        (∀ it ∈ w, it.symbol ≠ upper s) →
        add w s p = (w ++ [{ symbol := upper s, target_price := p, remarks := "" }],
          true)) ∧
    (∀ (w : List WatchItem) (s : String) (p : ℚ),
        (∃ it ∈ w, it.symbol = upper s) → add w s p = (w, false)) ∧
    load_wishlist .absent = some [] ∧
    add [] "reliance.ns" 2500 =
      ([{ symbol := "RELIANCE.NS", target_price := 2500, remarks := "" }], true) := by
  refine ⟨?_, ?_, rfl, by decide⟩
  · intro w s p h
    have hg : (w.any fun item => item.symbol == upper s) = false :=
      List.any_eq_false.mpr fun it hit => by simpa using h it hit
    simp [add, hg]
  · intro w s p h
    have hg : (w.any fun item => item.symbol == upper s) = true :=
      List.any_eq_true.mpr (by obtain ⟨it, hit, he⟩ := h; exact ⟨it, hit, by simpa using he⟩)
    simp [add, hg]

/-- Witness for C4 at concrete inputs: a fresh symbol is appended uppercased,
and a duplicate in different casing is rejected. -/
theorem add_normalizes_and_appends_witness :
    add [{ symbol := "INFY", target_price := 10, remarks := "" }] "tcs.ns" 5 =
      ([{ symbol := "INFY", target_price := 10, remarks := "" },
        { symbol := "TCS.NS", target_price := 5, remarks := "" }], true) ∧
    add [{ symbol := "INFY", target_price := 10, remarks := "" }] "infy" 20 =
      ([{ symbol := "INFY", target_price := 10, remarks := "" }], false) :=
  ⟨add_normalizes_and_appends.1 _ "tcs.ns" 5 (by decide),
   add_normalizes_and_appends.2.1 _ "infy" 20 (by decide)⟩

/-- C8: updating the target price for a symbol carried by no item of the
collection returns the collection unchanged, and likewise updating the
remarks for an absent symbol returns the collection unchanged. -/
theorem update_absent_symbol_noop :
    (∀ (w : List WatchItem) (s : String) (p : ℚ),
        (∀ it ∈ w, it.symbol ≠ s) → update_target w s p = w) ∧
    (∀ (w : List WatchItem) (s : String) (r : String),
        (∀ it ∈ w, it.symbol ≠ s) → update_remarks w s r = w) := by
  constructor
  · intro w s p h
    unfold update_target
    rw [List.map_congr_left (g := id) fun it hit => by simp [h it hit]]
    exact List.map_id w
  · intro w s r h
    unfold update_remarks
    rw [List.map_congr_left (g := id) fun it hit => by simp [h it hit]]
    exact List.map_id w

/-- Witness for C8 at a concrete input: a symbol absent from the collection
leaves both updates without effect. -/
theorem update_absent_symbol_noop_witness :
    update_target [{ symbol := "INFY", target_price := 10, remarks := "" }] "TCS.NS" 7 =
      [{ symbol := "INFY", target_price := 10, remarks := "" }] ∧
    update_remarks [{ symbol := "INFY", target_price := 10, remarks := "" }] "TCS.NS" "x" =
      [{ symbol := "INFY", target_price := 10, remarks := "" }] :=
  ⟨update_absent_symbol_noop.1 _ "TCS.NS" 7 (by decide),
   update_absent_symbol_noop.2 _ "TCS.NS" "x" (by decide)⟩

/-- C9: when the symbol is present, update_remarks replaces exactly the
remarks field of the matching items and touches nothing else: the length is
unchanged and, position by position, a matching item keeps its symbol and
target price with only remarks replaced, while a non-matching item is
returned identically (so the order of items is also unchanged). -/
theorem update_remarks_frame (w : List WatchItem) (s r : String)
    (_hmem : s ∈ w.map (fun it => it.symbol)) :
    (update_remarks w s r).length = w.length ∧
    ∀ i : Nat, (update_remarks w s r)[i]? =
      (w[i]?).map (fun it =>
        if it.symbol = s then { it with remarks := r } else it) := by
  constructor
  · exact List.length_map w _
  · intro i
    unfold update_remarks
    rw [List.getElem?_map]
    cases w[i]? with
    | none => rfl
    | some it =>
      by_cases h : it.symbol = s <;> simp [h]

/-- Witness for C9 at a concrete input: only the remarks of the matching
item change. -/
theorem update_remarks_frame_witness :
    "INFY" ∈ (([{ symbol := "INFY", target_price := 10, remarks := "a" },
                { symbol := "TCS.NS", target_price := 20, remarks := "b" }] :
                 List WatchItem).map (fun it => it.symbol)) ∧
    ((update_remarks [{ symbol := "INFY", target_price := 10, remarks := "a" },
                      { symbol := "TCS.NS", target_price := 20, remarks := "b" }]
        "INFY" "hold").length = 2 ∧
      ∀ i : Nat,
        (update_remarks [{ symbol := "INFY", target_price := 10, remarks := "a" },
                         { symbol := "TCS.NS", target_price := 20, remarks := "b" }]
          "INFY" "hold")[i]? =
        (([{ symbol := "INFY", target_price := 10, remarks := "a" },
           { symbol := "TCS.NS", target_price := 20, remarks := "b" }] :
            List WatchItem)[i]?).map (fun it =>
          if it.symbol = "INFY" then { it with remarks := "hold" } else it)) :=
  ⟨by decide, update_remarks_frame _ "INFY" "hold" (by decide)⟩

theorem decodeItem_encodeItem (it : WatchItem) : decodeItem (encodeItem it) = some it := by
  rfl

theorem decodeItems_encode (w : List WatchItem) :
    decodeItems (w.map encodeItem) = some w := by
  induction w with
  | nil => rfl
  | cons it w ih => simp [decodeItems, decodeItem_encodeItem, ih]

theorem decodeWishlist_encodeWishlist (w : List WatchItem) :
    decodeWishlist (encodeWishlist w) = some w := by
  simp [decodeWishlist, encodeWishlist, decodeItems_encode]

/-- C5: saving any collection of watch items and loading it back yields an
equal collection, same items in the same order. -/
theorem load_save_roundtrip (w : List WatchItem) (fs : FileState) :
    load_wishlist (save_wishlist w fs) = some w := by
  simp [load_wishlist, save_wishlist, decodeWishlist_encodeWishlist]

/-- C2, counterexample to atomicity: a concrete failing run of save.  The
previous file holds the serialization of `[INFY item]`; `save_wishlist` of
`[TCS item]` opens the file with mode "w", which truncates it, and the dump
then fails.  The resulting file neither holds the serialization of the input
collection nor the previous contents — the claimed disjunction is false. -/
theorem save_atomicity_counterexample :
    ¬ (save_wishlist_failed [{ symbol := "TCS.NS", target_price := 4000, remarks := "" }]
          (FileState.holds (encodeWishlist
            [{ symbol := "INFY", target_price := 1500, remarks := "" }])) =
        FileState.holds (encodeWishlist
          [{ symbol := "TCS.NS", target_price := 4000, remarks := "" }]) ∨
       save_wishlist_failed [{ symbol := "TCS.NS", target_price := 4000, remarks := "" }]
          (FileState.holds (encodeWishlist
            [{ symbol := "INFY", target_price := 1500, remarks := "" }])) =
        FileState.holds (encodeWishlist
          [{ symbol := "INFY", target_price := 1500, remarks := "" }])) := by
  rintro (h | h) <;> simp [save_wishlist_failed] at h

/-- C2 amended: a successful save overwrites the persisted file with exactly
the full serialization of the input collection, independently of the
previous contents (full replace, no merge — loading it back returns exactly
the input); but the write is not atomic: the file is truncated on open, so a
write that fails midway leaves a truncated file that is unreadable, not the
previous contents. -/
theorem save_full_replace_not_atomic (w : List WatchItem) (fs : FileState) :
    save_wishlist w fs = FileState.holds (encodeWishlist w) ∧
    load_wishlist (save_wishlist w fs) = some w ∧
    save_wishlist_failed w fs = FileState.truncated ∧
    load_wishlist (save_wishlist_failed w fs) = none := by
  exact ⟨rfl, by simp [load_wishlist, save_wishlist, decodeWishlist_encodeWishlist],
    rfl, rfl⟩

/-- C3, counterexample: the add handler itself writes the persisted file.
Adding "RELIANCE.NS" to the empty collection with no persisted file leaves
the file holding the serialization of the one-item collection — not its
previous (absent) state. -/
theorem add_handler_file_unchanged_counterexample :
    (add_handler [] "RELIANCE.NS" 2500 FileState.absent).2.2 ≠ FileState.absent := by
  simp [add_handler, save_wishlist]

/-- C3 amended: the add handler persists exactly on success — when the add
is rejected as a duplicate the persisted file is untouched, and when the add
is accepted the handler itself saves, leaving the file holding the
serialization of the updated collection (the handler, not a separate caller,
performs the save: manitracker.py line 67). -/
theorem add_handler_persists_on_success (w : List WatchItem) (s : String) (p : ℚ)
    (fs : FileState) :
    ((add_handler w s p fs).2.1 = false → (add_handler w s p fs).2.2 = fs) ∧
    ((add_handler w s p fs).2.1 = true →
      (add_handler w s p fs).2.2 =
        FileState.holds (encodeWishlist (add_handler w s p fs).1)) := by
  cases hg : w.any (fun item => item.symbol == upper s) with
  | true => simp [add_handler, hg]
  | false => simp [add_handler, hg, save_wishlist]

/-- Witness for the amended C3 at concrete inputs: a duplicate add leaves
the file alone; a fresh add leaves the file holding the new serialization. -/
theorem add_handler_persists_on_success_witness :
    (add_handler [{ symbol := "INFY", target_price := 10, remarks := "" }] "infy" 20
        FileState.absent).2.2 = FileState.absent ∧
    (add_handler [] "RELIANCE.NS" 2500 FileState.absent).2.2 =
      FileState.holds (encodeWishlist
        [{ symbol := "RELIANCE.NS", target_price := 2500, remarks := "" }]) :=
  ⟨(add_handler_persists_on_success _ "infy" 20 FileState.absent).1 (by decide),
   (add_handler_persists_on_success [] "RELIANCE.NS" 2500 FileState.absent).2 (by decide)⟩

theorem lookup_append_of_none {α β : Type} [BEq α] {l1 : List (α × β)}
    (l2 : List (α × β)) {a : α} (h : l1.lookup a = none) :
    (l1 ++ l2).lookup a = l2.lookup a := by
  induction l1 with
  | nil => simp
  | cons kb l1 ih =>
    obtain ⟨k, b⟩ := kb
    cases hk : a == k with
    | true =>
      rw [List.lookup_cons, hk] at h
      exact Option.noConfusion h
    | false =>
      rw [List.cons_append, List.lookup_cons, hk]
      rw [List.lookup_cons, hk] at h
      exact ih h

theorem lookup_append_of_some {α β : Type} [BEq α] {l1 : List (α × β)}
    (l2 : List (α × β)) {a : α} {b : β} (h : l1.lookup a = some b) :
    (l1 ++ l2).lookup a = some b := by
  induction l1 with
  | nil => simp at h
  | cons kb l1 ih =>
    obtain ⟨k, c⟩ := kb
    cases hk : a == k with
    | true =>
      rw [List.cons_append, List.lookup_cons, hk]
      rw [List.lookup_cons, hk] at h
      exact h
    | false =>
      rw [List.cons_append, List.lookup_cons, hk]
      rw [List.lookup_cons, hk] at h
      exact ih h

theorem get_stock_info_hit (provider : Provider) (symbol : String) (st : CacheState)
    {r : StockResult} (h : st.cache.lookup symbol = some r) :
    get_stock_info provider symbol st = (r, st) := by
  simp [get_stock_info, h]

theorem get_stock_info_miss (provider : Provider) (symbol : String) (st : CacheState)
    (h : st.cache.lookup symbol = none) :
    get_stock_info provider symbol st =
      (let r : StockResult :=
        match provider symbol with
        | some (data, info) => (some data, some info)
        | none => (none, none)
       (r, { cache := st.cache ++ [(symbol, r)], calls := st.calls ++ [symbol] })) := by
  simp [get_stock_info, h]

theorem cached_preserved (provider : Provider) (s sym : String) (r : StockResult)
    (st : CacheState) (hc : st.cache.lookup s = some r) :
    ((get_stock_info provider sym st).2).cache.lookup s = some r ∧
    ((get_stock_info provider sym st).2).calls.count s = st.calls.count s := by
  cases hl : st.cache.lookup sym with
  | some r2 => rw [get_stock_info_hit provider sym st hl]; exact ⟨hc, rfl⟩
  | none =>
    rw [get_stock_info_miss provider sym st hl]
    have hne : sym ≠ s := by
      intro e
      rw [e] at hl
      rw [hl] at hc
      exact Option.noConfusion hc
    constructor
    · exact lookup_append_of_some _ hc
    · simp [List.count_append, List.count_cons, beq_iff_eq, hne]

theorem runFetches_cached (provider : Provider) (s : String) (r : StockResult)
    (rs : List String) (st : CacheState) (hc : st.cache.lookup s = some r) :
    (runFetches provider rs st).cache.lookup s = some r ∧
    (runFetches provider rs st).calls.count s = st.calls.count s := by
  induction rs generalizing st with
  | nil => exact ⟨hc, rfl⟩
  | cons sym rs ih =>
    simp only [runFetches, List.foldl_cons] at *
    have h1 := cached_preserved provider s sym r st hc
    have h2 := ih _ h1.1
    exact ⟨h2.1, h2.2.trans h1.2⟩

/-- C6: fetching a symbol twice within the same session invokes the provider
exactly once — the first fetch (from a state where the symbol is not yet
cached) performs exactly one provider call, the second fetch performs none,
and the two results are equal. -/
theorem fetch_memoized_single_provider_call (provider : Provider) (symbol : String)
    (st : CacheState) (h : st.cache.lookup symbol = none) :
    (get_stock_info provider symbol ((get_stock_info provider symbol st).2)).1 =
      (get_stock_info provider symbol st).1 ∧
    ((get_stock_info provider symbol st).2).calls = st.calls ++ [symbol] ∧
    ((get_stock_info provider symbol ((get_stock_info provider symbol st).2)).2).calls =
      ((get_stock_info provider symbol st).2).calls := by
  rw [get_stock_info_miss provider symbol st h]
  have hl : (st.cache ++
      [(symbol, (match provider symbol with
        | some (data, info) => (some data, some info)
        | none => (none, none) : StockResult))]).lookup symbol =
      some (match provider symbol with
        | some (data, info) => (some data, some info)
        | none => (none, none)) := by
    rw [lookup_append_of_none _ h]
    simp [List.lookup_cons]
  rw [get_stock_info_hit provider symbol _ hl]
  exact ⟨rfl, rfl, rfl⟩

/-- Witness for C6 at a concrete input: a stub provider, the symbol INFY and
an empty cache. -/
theorem fetch_memoized_single_provider_call_witness :
    (get_stock_info (fun _ => some ([], []))
        "INFY" ((get_stock_info (fun _ => some ([], [])) "INFY" ⟨[], []⟩).2)).1 =
      (get_stock_info (fun _ => some ([], [])) "INFY" ⟨[], []⟩).1 ∧
    ((get_stock_info (fun _ => some ([], [])) "INFY" ⟨[], []⟩).2).calls = [] ++ ["INFY"] ∧
    ((get_stock_info (fun _ => some ([], []))
        "INFY" ((get_stock_info (fun _ => some ([], [])) "INFY" ⟨[], []⟩).2)).2).calls =
      ((get_stock_info (fun _ => some ([], [])) "INFY" ⟨[], []⟩).2).calls :=
  fetch_memoized_single_provider_call (fun _ => some ([], [])) "INFY" ⟨[], []⟩ rfl

/-- C7: if the provider's quote blob lacks `currentPrice` (resp.
`regularMarketChangePercent`), the extracted current price (resp. day-change
percentage) is the sentinel "N/A" rather than an error; a fetch whose
provider call succeeds returns the data whatever fields the blob carries;
and on the blob {currentPrice: 2600.5} the current price is 2600.5 while the
day change is "N/A". -/
theorem quote_fields_absent_to_sentinel :
    (∀ info : Info, List.lookup "currentPrice" info = none →
        current_price_of info = Json.str "N/A") ∧
    (∀ info : Info, List.lookup "regularMarketChangePercent" info = none →
        day_change_of info = Json.str "N/A") ∧
    (∀ (provider : Provider) (symbol : String) (st : CacheState)
        (data : List PriceBar) (info : Info),
        st.cache.lookup symbol = none → provider symbol = some (data, info) →
        (get_stock_info provider symbol st).1 = (some data, some info)) ∧
    current_price_of [("currentPrice", Json.num 2600.5)] = Json.num 2600.5 ∧
    day_change_of [("currentPrice", Json.num 2600.5)] = Json.str "N/A" := by
  refine ⟨?_, ?_, ?_, rfl, rfl⟩
  · intro info h
    simp [current_price_of, h]
  · intro info h
    simp [day_change_of, h]
  · intro provider symbol st data info h hp
    rw [get_stock_info_miss provider symbol st h]
    simp [hp]

/-- Witness for C7 at concrete inputs: the empty blob yields both sentinels,
and a stub provider returning the scenario blob makes the fetch succeed
with that blob. -/
theorem quote_fields_absent_to_sentinel_witness :
    current_price_of [] = Json.str "N/A" ∧
    day_change_of [] = Json.str "N/A" ∧
    (get_stock_info (fun _ => some ([], [("currentPrice", Json.num 2600.5)]))
        "RELIANCE.NS" ⟨[], []⟩).1 =
      (some [], some [("currentPrice", Json.num 2600.5)]) :=
  ⟨quote_fields_absent_to_sentinel.1 [] rfl,
   quote_fields_absent_to_sentinel.2.1 [] rfl,
   quote_fields_absent_to_sentinel.2.2.1 _ "RELIANCE.NS" ⟨[], []⟩ [] _ rfl rfl⟩

/-- C10: when the provider call for a symbol raises, the fetch returns the
failure value (None, None), and that failure is memoized: across any later
sequence of fetches within the process lifetime the provider is never
invoked again for that symbol, and a later fetch of it still returns the
cached (None, None). -/
theorem failed_fetch_memoized (provider : Provider) (s : String) (st : CacheState)
    (rs : List String) (hp : provider s = none) (h : st.cache.lookup s = none) :
    (get_stock_info provider s st).1 = (none, none) ∧
    (runFetches provider rs ((get_stock_info provider s st).2)).calls.count s =
      ((get_stock_info provider s st).2).calls.count s ∧
    (get_stock_info provider s
        (runFetches provider rs ((get_stock_info provider s st).2))).1 =
      (none, none) := by
  have h1 : (get_stock_info provider s st).1 = ((none, none) : StockResult) := by
    simp [get_stock_info, h, hp]
  have h2 : (get_stock_info provider s st).2 =
      ⟨st.cache ++ [(s, ((none, none) : StockResult))], st.calls ++ [s]⟩ := by
    simp [get_stock_info, h, hp]
  have hl : ((get_stock_info provider s st).2).cache.lookup s =
      some ((none, none) : StockResult) := by
    rw [h2]
    exact (lookup_append_of_none _ h).trans (by simp [List.lookup_cons])
  have hrun := runFetches_cached provider s ((none, none) : StockResult) rs _ hl
  refine ⟨h1, hrun.2, ?_⟩
  rw [get_stock_info_hit provider s _ hrun.1]

/-- Witness for C10 at a concrete input: a provider that always raises, the
symbol BAD.NS, an empty cache and two later render-cycle fetches. -/
theorem failed_fetch_memoized_witness :
    (get_stock_info (fun _ => none) "BAD.NS" ⟨[], []⟩).1 = (none, none) ∧
    (runFetches (fun _ => none) ["BAD.NS", "INFY"]
        ((get_stock_info (fun _ => none) "BAD.NS" ⟨[], []⟩).2)).calls.count "BAD.NS" =
      ((get_stock_info (fun _ => none) "BAD.NS" ⟨[], []⟩).2).calls.count "BAD.NS" ∧
    (get_stock_info (fun _ => none) "BAD.NS"
        (runFetches (fun _ => none) ["BAD.NS", "INFY"]
          ((get_stock_info (fun _ => none) "BAD.NS" ⟨[], []⟩).2))).1 =
      (none, none) :=
  failed_fetch_memoized (fun _ => none) "BAD.NS" ⟨[], []⟩ ["BAD.NS", "INFY"] rfl rfl

end ManiTracker
